import Mathlib

/-!
Shallow embedding of the aggregation logic of `app.py`, a Streamlit dashboard
over a CSV of hospital reviews.  Rows carry the columns the aggregations read:
`review`, `rating`, `location`, `cluster`, `predicted_sentiment`.  Pandas
operations used by the dashboard (`value_counts`, `groupby(...).agg`,
`sort_index`, `.sample`, `.get`, `crosstab`-style counting) are modelled as
executable list functions below.
-/

namespace Dashboard

/-- One record of the loaded CSV, with the columns the aggregations use. -/
structure Row where
  review : String
  rating : ℚ
  location : String
  cluster : Int
  predicted_sentiment : String
deriving DecidableEq, Repr

abbrev Table := List Row

/-! ### pandas `value_counts`

`Series.value_counts()` returns, for each distinct value, its number of
occurrences, sorted by count descending.  We model it as the list of
`(value, count)` pairs over the distinct values, insertion-sorted by
descending count. -/

/-- Comparison used by `value_counts`: count descending. -/
def byCount {α : Type} (p q : α × Nat) : Prop := q.2 ≤ p.2

instance {α : Type} : DecidableRel (byCount (α := α)) :=
  fun p q => inferInstanceAs (Decidable (q.2 ≤ p.2))

instance {α : Type} : IsTotal (α × Nat) byCount :=
  ⟨fun p q => le_total q.2 p.2⟩

instance {α : Type} : IsTrans (α × Nat) byCount :=
  ⟨fun _ _ _ h1 h2 => le_trans h2 h1⟩

/-- Model of `Series.value_counts()`: pairs `(value, multiplicity)` over the
distinct values of the series, ordered by count descending. -/
def value_counts {α : Type} [DecidableEq α] (xs : List α) : List (α × Nat) :=
  List.insertionSort byCount (xs.dedup.map (fun k => (k, xs.count k)))

/-- Model of `value_counts.get(key, default)`. -/
def vc_get {α : Type} [DecidableEq α] (vc : List (α × Nat)) (k : α) (d : Nat) : Nat :=
  match vc.find? (fun p => p.1 = k) with
  | some p => p.2
  | none => d

/-! ### Load path (`load_data`, lines 98-105)

`load_data` tries `pd.read_csv` and on any failure calls `st.error` once and
returns `pd.DataFrame()` — an empty frame with **no columns**.  We model a
pandas frame as its column-name list plus its rows, so that column access can
fail (`KeyError`) exactly when pandas raises. -/

/-- A pandas DataFrame: the columns its index carries, and its rows. -/
structure PandasFrame where
  cols : List String
  rows : Table
deriving DecidableEq, Repr

/-- Columns of the review CSV actually read by the dashboard. -/
def stdCols : List String :=
  ["review", "rating", "location", "cluster", "predicted_sentiment"]

/-- Model of `load_data` (lines 99-105): on success the parsed frame, on
failure one `st.error` message and the column-less `pd.DataFrame()`.
The first component collects the error messages reported. -/
def load_data (input : Option Table) : List String × PandasFrame :=
  match input with
  | some rows => ([], ⟨stdCols, rows⟩)
  | none => (["Error loading data"], ⟨[], []⟩)

/-- Model of `df['location'].nunique()` (line 195): pandas raises `KeyError`
when the column is absent from the frame. -/
def total_hospitals_exc (df : PandasFrame) : Except String Nat :=
  if "location" ∈ df.cols then
    Except.ok ((df.rows.map Row.location).dedup.length)
  else
    Except.error "KeyError: location"

/-! ### Overview metrics (Home menu, lines 184-210) -/

/-- Line 195: `total_hospitals = df['location'].nunique()`. -/
def total_hospitals (t : Table) : Nat := (t.map Row.location).dedup.length

/-- Line 204: `total_locations = df['location'].nunique()`. -/
def total_locations (t : Table) : Nat := (t.map Row.location).dedup.length

/-! ### Per-location summary (`hospital_stats`, lines 219-234)

`df.groupby('location').agg({'rating': 'mean', 'review': 'count'}).round(2)`:
group keys sorted ascending (pandas `groupby` default `sort=True`), per group
the mean rating rounded to two decimals and the review count. -/

/-- Rounding to two decimals, as applied by `.round(2)`. -/
def round2 (q : ℚ) : ℚ := (round (q * 100) : ℤ) / 100

/-- Mean of the `rating` column of a list of rows (`Series.mean`). -/
def meanRating (rows : Table) : ℚ := ((rows.map Row.rating).sum) / rows.length

/-- Rows of `t` belonging to one location group. -/
def locGroup (t : Table) (loc : String) : Table :=
  t.filter (fun r => r.location = loc)

/-- Model of lines 219-222: per distinct location (ascending key order) the
rounded mean rating and the review count. -/
def hospital_stats (t : Table) : List (String × ℚ × Nat) :=
  (List.insertionSort (fun a b => a ≤ b) (t.map Row.location).dedup).map
    (fun loc => (loc, round2 (meanRating (locGroup t loc)), (locGroup t loc).length))

/-! ### Rating histogram (`rating_dist`, line 238)

`df['rating'].value_counts().sort_index()`: counts per distinct rating,
re-sorted ascending by the rating value. -/

/-- Comparison used by `sort_index`: key ascending. -/
def byKey (p q : ℚ × Nat) : Prop := p.1 ≤ q.1

instance : DecidableRel byKey := fun p q => inferInstanceAs (Decidable (p.1 ≤ q.1))

instance : IsTotal (ℚ × Nat) byKey := ⟨fun p q => le_total p.1 q.1⟩

instance : IsTrans (ℚ × Nat) byKey := ⟨fun _ _ _ h1 h2 => le_trans h1 h2⟩

/-- Line 238: `rating_dist = df['rating'].value_counts().sort_index()`. -/
def rating_dist (t : Table) : List (ℚ × Nat) :=
  List.insertionSort byKey (value_counts (t.map Row.rating))

/-! ### Cluster detail (lines 429-452)

`cluster_data = filtered_df_cluster[filtered_df_cluster['cluster'] == selected]`
and the statistics displayed for it: review count, rating min and max,
sentiment distribution, per-hospital distribution, and the pool the
three-review sample is drawn from. -/

/-- The rows whose `cluster` equals the selected id (line 429). -/
def cluster_rows (t : Table) (c : Int) : Table :=
  t.filter (fun r => r.cluster = c)

/-- `Series.min()`: `none` models pandas NaN on an empty series. -/
def qmin (l : List ℚ) : Option ℚ :=
  l.foldr (fun x acc => match acc with
    | none => some x
    | some y => some (min x y)) none

/-- `Series.max()`: `none` models pandas NaN on an empty series. -/
def qmax (l : List ℚ) : Option ℚ :=
  l.foldr (fun x acc => match acc with
    | none => some x
    | some y => some (max x y)) none

/-- Everything lines 433-452 display about the selected cluster. -/
structure ClusterDetail where
  count : Nat
  ratingMin : Option ℚ
  ratingMax : Option ℚ
  sentimentDist : List (String × Nat)
  locationDist : List (String × Nat)
  reviewPool : List String
deriving DecidableEq, Repr

/-- Model of the cluster-detail pane (lines 429-452). -/
def cluster_data (t : Table) (c : Int) : ClusterDetail :=
  let rows := cluster_rows t c
  { count := rows.length
    ratingMin := qmin (rows.map Row.rating)
    ratingMax := qmax (rows.map Row.rating)
    sentimentDist := value_counts (rows.map Row.predicted_sentiment)
    locationDist := value_counts (rows.map Row.location)
    reviewPool := rows.map Row.review }

/-! ### Random samples (lines 450, 556)

`Series.sample(n)` draws `n` items without replacement: we model the random
state as a permutation `p` of the pool and the sample as its first `n`
elements. -/

/-- Line 450: `cluster_data['review'].sample(min(3, len(cluster_data)))`. -/
def sample_reviews (t : Table) (c : Int) (p : List String) : List String :=
  p.take (min 3 ((cluster_rows t c).map Row.review).length)

/-! ### Sentiment analysis (lines 459-560) -/

/-- The two sentiment labels the dashboard renders (lines 464, 473, 551). -/
def sentimentLabels : List String := ["positif", "negatif"]

/-- Line 459: `sentiment_counts = df['predicted_sentiment'].value_counts()`. -/
def sentiment_counts (t : Table) : List (String × Nat) :=
  value_counts (t.map Row.predicted_sentiment)

/-- Number of rows of `t` carrying sentiment `s`. -/
def countSentiment (t : Table) (s : String) : Nat :=
  (t.map Row.predicted_sentiment).count s

/-- Line 464: `positive_count = sentiment_counts.get('positif', 0)`. -/
def positive_count (t : Table) : Nat := vc_get (sentiment_counts t) "positif" 0

/-- Line 473: `negative_count = sentiment_counts.get('negatif', 0)`. -/
def negative_count (t : Table) : Nat := vc_get (sentiment_counts t) "negatif" 0

/-- Lines 530-535: the location filter; `none` is the `'Semua'` (all) choice. -/
def filtered_df (t : Table) (sel : Option String) : Table :=
  match sel with
  | none => t
  | some loc => t.filter (fun r => r.location = loc)

/-- Lines 538-540: for each sentiment present in the filtered subset, its
count and its percentage `count / len(filtered_df) * 100`. -/
def sentiment_stats (t : Table) (sel : Option String) : List (String × Nat × ℚ) :=
  (value_counts ((filtered_df t sel).map Row.predicted_sentiment)).map
    (fun p => (p.1, p.2, (p.2 : ℚ) / ((filtered_df t sel).length : ℚ) * 100))

/-- Percentage a sentiment label receives on the code's `count/len*100`
formula, with the `.get`-style zero default for an absent label. -/
def sentiment_pct (t : Table) (s : String) : ℚ :=
  (vc_get (value_counts (t.map Row.predicted_sentiment)) s 0 : ℚ) / (t.length : ℚ) * 100

/-- Line 554: the rows of the filtered frame carrying the chosen sentiment. -/
def sentiment_matching (t : Table) (sel : Option String) (s : String) : Table :=
  (filtered_df t sel).filter (fun r => r.predicted_sentiment = s)

/-- Line 556: `sentiment_reviews['review'].sample(min(5, len(...)))`. -/
def sentiment_sample (t : Table) (sel : Option String) (s : String)
    (p : List String) : List String :=
  p.take (min 5 ((sentiment_matching t sel s).map Row.review).length)

/-- What lines 555-560 render: either a sample of reviews or the explicit
`st.info` no-data message. -/
inductive SampleResult where
  | samples : List String → SampleResult
  | noData : String → SampleResult
deriving DecidableEq, Repr

/-- Model of lines 554-560: sample up to five matching reviews, or report
the explicit no-data message when nothing matches. -/
def sentiment_reviews (t : Table) (sel : Option String) (s : String)
    (p : List String) : SampleResult :=
  if 0 < (sentiment_matching t sel s).length then
    SampleResult.samples (sentiment_sample t sel s p)
  else
    SampleResult.noData
      ("Tidak ada review dengan sentiment " ++ s ++ " untuk filter yang dipilih.")

/-! ### Preprocessing reduction stat (spec §4.1, not present in src) -/

/-- Modelled from the spec: the preprocessing view's input record.  The
repository variant in `src/app.py` has no Preprocessing menu; the spec
describes a `review` column and a fully stopword-filtered column. -/
structure PrepRecord where
  review : String
  stopwords_data : String
deriving DecidableEq, Repr

/-- Modelled from the spec: counts maximal runs of non-space characters;
the Bool argument tracks whether the previous character was inside a word. -/
def countWordsAux : List Char → Bool → Nat
  | [], _ => 0
  | c :: cs, inWord =>
    if c = ' ' then countWordsAux cs false
    else (if inWord then 0 else 1) + countWordsAux cs true

/-- Modelled from the spec: whitespace word count of a text (Python
`str.split()` semantics: empty fragments do not count). -/
def wordCount (s : String) : Nat := countWordsAux s.data false

/-- Modelled from the spec: average word count of a text column. -/
def avgWords (f : PrepRecord → String) (t : List PrepRecord) : ℚ :=
  ((t.map (fun r => (wordCount (f r) : ℚ))).sum) / (t.length : ℚ)

/-- Modelled from the spec: percentage reduction
`(before - after) / before * 100`, guarded against `before == 0`. -/
def reduction_stat (t : List PrepRecord) : ℚ :=
  let before := avgWords PrepRecord.review t
  let after := avgWords PrepRecord.stopwords_data t
  if before = 0 then 0 else (before - after) / before * 100

/-! ### Concrete tables used to instantiate the theorems -/

/-- Three reviews in one cluster at one location, ratings 1, 3, 5. -/
def tblA : Table :=
  [⟨"bagus", 1, "X", 0, "positif"⟩,
   ⟨"cukup", 3, "X", 0, "positif"⟩,
   ⟨"baik", 5, "X", 0, "positif"⟩]

/-- Same reviews, locations, clusters and sentiments as `tblA`, same rating
minimum and maximum, but a different rating mean (1, 5, 5). -/
def tblB : Table :=
  [⟨"bagus", 1, "X", 0, "positif"⟩,
   ⟨"cukup", 5, "X", 0, "positif"⟩,
   ⟨"baik", 5, "X", 0, "positif"⟩]

/-- Location `X` holds only `positif` rows; the single `negatif` row lives
at location `Y`. -/
def tblC : Table :=
  [⟨"bagus", 5, "X", 0, "positif"⟩,
   ⟨"baik", 4, "X", 0, "positif"⟩,
   ⟨"buruk", 1, "Y", 1, "negatif"⟩]

/-- A preprocessing record whose stopword-filtered text kept every word. -/
def prepT : List PrepRecord := [⟨"pelayanan ramah", "pelayanan ramah"⟩]

/-! ### Helper lemmas -/

theorem value_counts_perm {α : Type} [DecidableEq α] (xs : List α) :
    List.Perm (value_counts xs) (xs.dedup.map (fun k => (k, xs.count k))) :=
  List.perm_insertionSort _ _

theorem mem_value_counts {α : Type} [DecidableEq α] {xs : List α} {p : α × Nat} :
    p ∈ value_counts xs ↔ p.1 ∈ xs ∧ p = (p.1, xs.count p.1) := by
  rw [(value_counts_perm xs).mem_iff, List.mem_map]
  constructor
  · rintro ⟨k, hk, rfl⟩
    exact ⟨List.mem_dedup.mp hk, rfl⟩
  · rintro ⟨hmem, hp⟩
    exact ⟨p.1, List.mem_dedup.mpr hmem, hp.symm⟩

theorem value_counts_sorted {α : Type} [DecidableEq α] (xs : List α) :
    List.Sorted byCount (value_counts xs) :=
  List.sorted_insertionSort _ _

theorem value_counts_keys_perm {α : Type} [DecidableEq α] (xs : List α) :
    List.Perm ((value_counts xs).map Prod.fst) xs.dedup := by
  have h := (value_counts_perm xs).map Prod.fst
  simpa [List.map_map, Function.comp_def] using h

theorem value_counts_keys_nodup {α : Type} [DecidableEq α] (xs : List α) :
    ((value_counts xs).map Prod.fst).Nodup :=
  (value_counts_keys_perm xs).nodup_iff.mpr (List.nodup_dedup xs)

theorem mem_keys_value_counts {α : Type} [DecidableEq α] {xs : List α} {k : α} :
    k ∈ (value_counts xs).map Prod.fst ↔ k ∈ xs := by
  rw [(value_counts_keys_perm xs).mem_iff, List.mem_dedup]

/-- `value_counts(...).get(k, 0)` is exactly the multiplicity of `k`. -/
theorem vc_get_eq_count {α : Type} [DecidableEq α] (xs : List α) (k : α) :
    vc_get (value_counts xs) k 0 = xs.count k := by
  unfold vc_get
  rcases hf : (value_counts xs).find? (fun p => p.1 = k) with _ | p
  · rw [hf]
    have hnone := List.find?_eq_none.mp hf
    by_cases hk : k ∈ xs
    · exfalso
      have hmem : (k, xs.count k) ∈ value_counts xs :=
        mem_value_counts.mpr ⟨hk, rfl⟩
      have := hnone _ hmem
      simp at this
    · simp [List.count_eq_zero_of_not_mem hk]
  · rw [hf]
    have hmem : p ∈ value_counts xs := List.mem_of_find?_eq_some hf
    have hkey : p.1 = k := by
      have := List.find?_some hf
      simpa using this
    have h2 : p.2 = xs.count p.1 := congrArg Prod.snd (mem_value_counts.mp hmem).2
    show p.2 = xs.count k
    rw [h2, hkey]

/-- Summing the counts of `value_counts` recovers the series length. -/
theorem value_counts_sum {α : Type} [DecidableEq α] (xs : List α) :
    (((value_counts xs).map Prod.snd).sum) = xs.length := by
  have hperm := (value_counts_perm xs).map Prod.snd
  rw [hperm.sum_eq]
  simpa [List.map_map, Function.comp] using List.sum_map_count_dedup_eq_length xs


theorem filter_length_count {β : Type} [DecidableEq β] (t : Table) (f : Row → β) (b : β) :
    (t.filter (fun r => f r = b)).length = (t.map f).count b := by
  rw [List.count_eq_countP, List.countP_map, ← List.countP_eq_length_filter]
  apply List.countP_congr
  intro r _
  simp [Function.comp_def]

theorem locGroup_length (t : Table) (loc : String) :
    (locGroup t loc).length = (t.map Row.location).count loc :=
  filter_length_count t Row.location loc

theorem cluster_rows_length (t : Table) (c : Int) :
    (cluster_rows t c).length = (t.map Row.cluster).count c :=
  filter_length_count t Row.cluster c

/-- Minimum of a list is one of its elements. -/
theorem qmin_mem : ∀ {l : List ℚ} {m : ℚ}, qmin l = some m → m ∈ l := by
  intro l
  induction l with
  | nil => intro m h; simp [qmin] at h
  | cons x xs ih =>
    intro m h
    rcases hx : qmin xs with _ | y
    · rw [qmin, List.foldr_cons, show xs.foldr _ none = qmin xs from rfl, hx] at h
      simp at h
      simp [h]
    · rw [qmin, List.foldr_cons, show xs.foldr _ none = qmin xs from rfl, hx] at h
      simp at h
      rcases min_choice x y with hc | hc
    -- the minimum is either the head or the minimum of the tail
      · rw [← h, hc]; exact List.mem_cons_self x xs
      · right
        exact ih (by rw [hx, ← h, hc])

/-- Maximum of a list is one of its elements. -/
theorem qmax_mem : ∀ {l : List ℚ} {m : ℚ}, qmax l = some m → m ∈ l := by
  intro l
  induction l with
  | nil => intro m h; simp [qmax] at h
  | cons x xs ih =>
    intro m h
    rcases hx : qmax xs with _ | y
    · rw [qmax, List.foldr_cons, show xs.foldr _ none = qmax xs from rfl, hx] at h
      simp at h
      simp [h]
    · rw [qmax, List.foldr_cons, show xs.foldr _ none = qmax xs from rfl, hx] at h
      simp at h
      rcases max_choice x y with hc | hc
      · rw [← h, hc]; exact List.mem_cons_self x xs
      · right
        exact ih (by rw [hx, ← h, hc])

/-- A non-empty list has a minimum. -/
theorem qmin_isSome : ∀ {l : List ℚ}, l ≠ [] → ∃ m, qmin l = some m := by
  intro l h
  cases l with
  | nil => exact absurd rfl h
  | cons x xs =>
    rw [qmin, List.foldr_cons, show xs.foldr _ none = qmin xs from rfl]
    rcases qmin xs with _ | y
    · exact ⟨x, rfl⟩
    · exact ⟨min x y, rfl⟩

/-- A non-empty list has a maximum. -/
theorem qmax_isSome : ∀ {l : List ℚ}, l ≠ [] → ∃ m, qmax l = some m := by
  intro l h
  cases l with
  | nil => exact absurd rfl h
  | cons x xs =>
    rw [qmax, List.foldr_cons, show xs.foldr _ none = qmax xs from rfl]
    rcases qmax xs with _ | y
    · exact ⟨x, rfl⟩
    · exact ⟨max x y, rfl⟩

/-! ### Claim theorems -/

/-- C1: the claim says a missing/corrupt CSV is reported once, an empty
dataset is substituted, and every subsequent aggregation degrades to a
"0 records" result.  The code does report once and substitute
`pd.DataFrame()`, and `len(df)` does degrade to 0 — but the substituted frame
has no columns, so the very next aggregation, `df['location'].nunique()`
(line 195), raises `KeyError` instead of degrading.  This theorem evaluates
the embedded code at the failing input. -/
theorem C1_load_failure_eval :
    (load_data none).1.length = 1 ∧
    (load_data none).2.rows.length = 0 ∧
    total_hospitals_exc (load_data none).2 = Except.error "KeyError: location" :=
  ⟨rfl, rfl, rfl⟩

/-- C10: the 'Rumah Sakit' metric (line 195) and the 'Lokasi' metric
(line 204) are both computed as `df['location'].nunique()`, hence are equal
on every table. -/
theorem C10_hospitals_eq_locations (t : Table) :
    total_hospitals t = total_locations t := rfl

/-- C6: the rating histogram (`df['rating'].value_counts().sort_index()`,
line 238) contains exactly the pairs (r, multiplicity of r) for the distinct
ratings r present in the table, its entries are sorted by rating strictly
ascending, and its counts sum to the table length. -/
theorem C6_rating_histogram (t : Table) :
    (∀ p : ℚ × Nat, p ∈ rating_dist t ↔
        p.1 ∈ t.map Row.rating ∧ p = (p.1, (t.map Row.rating).count p.1)) ∧
    ((rating_dist t).map Prod.fst).Sorted (fun a b => a < b) ∧
    ((rating_dist t).map Prod.snd).sum = t.length := by
  have hperm : List.Perm (rating_dist t) (value_counts (t.map Row.rating)) :=
    List.perm_insertionSort byKey _
  refine ⟨?_, ?_, ?_⟩
  · intro p
    rw [hperm.mem_iff]
    exact mem_value_counts
  · have hsorted : List.Sorted byKey (rating_dist t) :=
      List.sorted_insertionSort byKey _
    have hle : ((rating_dist t).map Prod.fst).Sorted (fun a b => a ≤ b) :=
      List.Pairwise.map Prod.fst (fun _ _ h => h) hsorted
    have hnd : ((rating_dist t).map Prod.fst).Nodup :=
      (hperm.map Prod.fst).nodup_iff.mpr (value_counts_keys_nodup _)
    exact hle.lt_of_le hnd
  · rw [(hperm.map Prod.snd).sum_eq, value_counts_sum, List.length_map]

/-- C7: the per-location summary (`df.groupby('location').agg(...)`,
lines 219-222) lists, in ascending (lexical) key order, exactly the distinct
locations of the table, each with the 2-decimal-rounded mean rating of its
rows and with a count equal to the number of records at that location. -/
theorem C7_per_location_summary (t : Table) :
    ((hospital_stats t).map (fun e => e.1)).Sorted (fun (a : String) b => a ≤ b) ∧
    (∀ e : String × ℚ × Nat, e ∈ hospital_stats t ↔
        e.1 ∈ t.map Row.location ∧
        e = (e.1, round2 (meanRating (locGroup t e.1)), (locGroup t e.1).length)) ∧
    (∀ e : String × ℚ × Nat, e ∈ hospital_stats t →
        e.2.2 = (t.map Row.location).count e.1) := by
  have hkeys : (hospital_stats t).map (fun e => e.1) =
      List.insertionSort (fun a b => a ≤ b) (t.map Row.location).dedup := by
    rw [hospital_stats, List.map_map]
    exact List.map_id _
  refine ⟨?_, ?_, ?_⟩
  · rw [hkeys]
    exact List.sorted_insertionSort _ _
  · intro e
    constructor
    · intro he
      rcases List.mem_map.mp he with ⟨loc, hloc, rfl⟩
      have : loc ∈ (t.map Row.location).dedup :=
        (List.perm_insertionSort _ _).mem_iff.mp hloc
      exact ⟨List.mem_dedup.mp this, rfl⟩
    · rintro ⟨hmem, he⟩
      rw [he]
      apply List.mem_map.mpr
      refine ⟨e.1, ?_, rfl⟩
      exact (List.perm_insertionSort _ _).mem_iff.mpr (List.mem_dedup.mpr hmem)
  · intro e he
    rcases List.mem_map.mp he with ⟨loc, _, rfl⟩
    exact locGroup_length t loc

/-- C2 counterexample: the cluster-detail pane does not report the mean
rating of the selected cluster.  `tblA` and `tblB` produce identical
cluster-detail output (same count, rating min and max, sentiment,
location and review columns) yet their cluster-0 mean ratings differ, so no
reported statistic is, or determines, the mean rating the claim promises. -/
theorem C2_no_mean_rating_counterexample :
    cluster_data tblA 0 = cluster_data tblB 0 ∧
    meanRating (cluster_rows tblA 0) ≠ meanRating (cluster_rows tblB 0) := by
  constructor
  · decide
  · have hA : cluster_rows tblA 0 = tblA := by decide
    have hB : cluster_rows tblB 0 = tblB := by decide
    have hA2 : meanRating tblA = 3 := by
      norm_num [meanRating, tblA]
    have hB2 : meanRating tblB = 11 / 3 := by
      norm_num [meanRating, tblB]
    rw [hA, hB, hA2, hB2]
    norm_num

/-- C2 (amended): for a cluster id present in the table, the cluster-detail
pane (lines 429-446) reports the count of matching rows, a rating minimum and
maximum that lie within [1,5] (under the rating-range invariant), and a
location distribution ordered by count descending whose first entry is a
most-frequent location with its exact count — but it does not report the mean
rating of those rows. -/
theorem C2_cluster_detail (t : Table) (c : Int)
    (hc : c ∈ t.map Row.cluster)
    (hr : ∀ r ∈ t, 1 ≤ r.rating ∧ r.rating ≤ 5) :
    (cluster_data t c).count = (t.map Row.cluster).count c ∧
    (∃ m, (cluster_data t c).ratingMin = some m ∧ 1 ≤ m ∧ m ≤ 5) ∧
    (∃ m, (cluster_data t c).ratingMax = some m ∧ 1 ≤ m ∧ m ≤ 5) ∧
    (∃ hd rest, (cluster_data t c).locationDist = hd :: rest ∧
        hd.1 ∈ (cluster_rows t c).map Row.location ∧
        hd.2 = ((cluster_rows t c).map Row.location).count hd.1 ∧
        ∀ loc ∈ (cluster_rows t c).map Row.location,
          ((cluster_rows t c).map Row.location).count loc ≤ hd.2) := by
  obtain ⟨r0, hr0t, hr0c⟩ := List.mem_map.mp hc
  have hr0mem : r0 ∈ cluster_rows t c := List.mem_filter.mpr ⟨hr0t, by simp [hr0c]⟩
  have hbound : ∀ x ∈ (cluster_rows t c).map Row.rating, 1 ≤ x ∧ x ≤ 5 := by
    intro x hx
    obtain ⟨r, hrmem, rfl⟩ := List.mem_map.mp hx
    exact hr r (List.mem_of_mem_filter hrmem)
  have hne : (cluster_rows t c).map Row.rating ≠ [] := by
    intro h
    exact List.ne_nil_of_mem hr0mem (by simpa using h)
  refine ⟨cluster_rows_length t c, ?_, ?_, ?_⟩
  · obtain ⟨m, hm⟩ := qmin_isSome hne
    have hmem := qmin_mem hm
    exact ⟨m, hm, (hbound m hmem).1, (hbound m hmem).2⟩
  · obtain ⟨m, hm⟩ := qmax_isSome hne
    have hmem := qmax_mem hm
    exact ⟨m, hm, (hbound m hmem).1, (hbound m hmem).2⟩
  · have hlocne : (cluster_data t c).locationDist ≠ [] := by
      intro h
      have hk : r0.location ∈ (cluster_rows t c).map Row.location :=
        List.mem_map.mpr ⟨r0, hr0mem, rfl⟩
      have : (r0.location, ((cluster_rows t c).map Row.location).count r0.location) ∈
          (cluster_data t c).locationDist :=
        mem_value_counts.mpr ⟨hk, rfl⟩
      rw [h] at this
      exact List.not_mem_nil _ this
    obtain ⟨hd, rest, hcons⟩ := List.exists_cons_of_ne_nil hlocne
    have hhdmem : hd ∈ (cluster_data t c).locationDist := by
      rw [hcons]; exact List.mem_cons_self hd rest
    obtain ⟨hdk, hdeq⟩ := mem_value_counts.mp hhdmem
    have hsorted : List.Sorted byCount ((cluster_data t c).locationDist) :=
      value_counts_sorted _
    rw [hcons] at hsorted
    have hrest := (List.sorted_cons.mp hsorted).1
    refine ⟨hd, rest, hcons, hdk, congrArg Prod.snd hdeq, ?_⟩
    intro loc hloc
    have hpm : (loc, ((cluster_rows t c).map Row.location).count loc) ∈
        (cluster_data t c).locationDist :=
      mem_value_counts.mpr ⟨hloc, rfl⟩
    rw [hcons] at hpm
    rcases List.mem_cons.mp hpm with heq | hin
    · rw [← heq]
    · exact hrest _ hin

/-- C2 witness: the amended statement evaluated on `tblA` with cluster 0. -/
theorem C2_cluster_detail_witness :
    (cluster_data tblA 0).count = (tblA.map Row.cluster).count 0 ∧
    (∃ m, (cluster_data tblA 0).ratingMin = some m ∧ 1 ≤ m ∧ m ≤ 5) ∧
    (∃ m, (cluster_data tblA 0).ratingMax = some m ∧ 1 ≤ m ∧ m ≤ 5) ∧
    (∃ hd rest, (cluster_data tblA 0).locationDist = hd :: rest ∧
        hd.1 ∈ (cluster_rows tblA 0).map Row.location ∧
        hd.2 = ((cluster_rows tblA 0).map Row.location).count hd.1 ∧
        ∀ loc ∈ (cluster_rows tblA 0).map Row.location,
          ((cluster_rows tblA 0).map Row.location).count loc ≤ hd.2) :=
  C2_cluster_detail tblA 0 (by decide) (by decide)

/-- Keys of the filtered sentiment statistics are the keys of the
underlying `value_counts`. -/
theorem sentiment_stats_keys (t : Table) (sel : Option String) :
    (sentiment_stats t sel).map (fun e => e.1) =
      (value_counts ((filtered_df t sel).map Row.predicted_sentiment)).map Prod.fst := by
  rw [sentiment_stats, List.map_map]
  rfl

/-- C3 counterexample: filtering `tblC` to location `X` leaves zero
`negatif` records, and the filtered sentiment statistics (lines 538-544)
then carry no `negatif` entry at all — the absent category of the fixed
label set is omitted rather than reported with count 0. -/
theorem C3_absent_category_omitted_counterexample :
    "negatif" ∈ sentimentLabels ∧
    countSentiment (filtered_df tblC (some "X")) "negatif" = 0 ∧
    "negatif" ∉ (sentiment_stats tblC (some "X")).map (fun e => e.1) := by
  refine ⟨by decide, by decide, ?_⟩
  rw [sentiment_stats_keys]
  decide

/-- C3 (amended): the overview metric cards (lines 464, 473) do report a
`.get`-with-default count — 0 when a fixed-set category is absent — equal to
the number of matching records; but the filtered sentiment statistics
(lines 538-544) list exactly the categories present in the filtered subset
(each with positive count and the `count/len*100` percentage), omitting
absent categories instead of reporting them as 0. -/
theorem C3_sentiment_category_reporting (t : Table) (sel : Option String) :
    positive_count t = countSentiment t "positif" ∧
    negative_count t = countSentiment t "negatif" ∧
    (∀ e : String × Nat × ℚ, e ∈ sentiment_stats t sel →
        e.2.1 = countSentiment (filtered_df t sel) e.1 ∧ 0 < e.2.1 ∧
        e.2.2 = (e.2.1 : ℚ) / ((filtered_df t sel).length : ℚ) * 100) ∧
    (∀ s : String, s ∈ (sentiment_stats t sel).map (fun e => e.1) ↔
        s ∈ (filtered_df t sel).map Row.predicted_sentiment) := by
  refine ⟨vc_get_eq_count _ _, vc_get_eq_count _ _, ?_, ?_⟩
  · intro e he
    rw [sentiment_stats] at he
    obtain ⟨p, hp, rfl⟩ := List.mem_map.mp he
    obtain ⟨hmem, hpe⟩ := mem_value_counts.mp hp
    have hcnt : p.2 = ((filtered_df t sel).map Row.predicted_sentiment).count p.1 :=
      congrArg Prod.snd hpe
    refine ⟨hcnt, ?_, ?_⟩
    · rw [hcnt]
      exact List.count_pos_iff.mpr hmem
    · rfl
  · intro s
    rw [sentiment_stats_keys, mem_keys_value_counts]

/-- C8: over the fixed label set, the sentiment percentages computed by the
code's `count/len(filtered_df)*100` formula (line 540, with `.get`-style 0
for an absent label) sum to exactly 100 on every non-empty filtered subset
whose labels come from the fixed set.  The sum is exact in ℚ, hence within
any floating rounding tolerance. -/
theorem C8_sentiment_percentages_sum (t : Table) (sel : Option String)
    (hne : filtered_df t sel ≠ [])
    (hcl : ∀ r ∈ filtered_df t sel, r.predicted_sentiment ∈ sentimentLabels) :
    (sentimentLabels.map (fun s => sentiment_pct (filtered_df t sel) s)).sum = 100 := by
  have hlen0 : (filtered_df t sel).length ≠ 0 :=
    fun h => hne (List.length_eq_zero.mp h)
  have hlen : ((filtered_df t sel).length : ℚ) ≠ 0 := Nat.cast_ne_zero.mpr hlen0
  have hall : ∀ x ∈ (filtered_df t sel).map Row.predicted_sentiment,
      x = "positif" ∨ x = "negatif" := by
    intro x hx
    obtain ⟨r, hr, rfl⟩ := List.mem_map.mp hx
    simpa [sentimentLabels] using hcl r hr
  have hcount : ((filtered_df t sel).map Row.predicted_sentiment).count "positif"
      + ((filtered_df t sel).map Row.predicted_sentiment).count "negatif"
      = (filtered_df t sel).length := by
    have hlm : ((filtered_df t sel).map Row.predicted_sentiment).length
        = (filtered_df t sel).length := List.length_map _ _
    rw [← hlm]
    generalize (filtered_df t sel).map Row.predicted_sentiment = l at hall ⊢
    induction l with
    | nil => rfl
    | cons x xs ih =>
      have hx := hall x (List.mem_cons_self x xs)
      have hxs : ∀ y ∈ xs, y = "positif" ∨ y = "negatif" :=
        fun y hy => hall y (List.mem_cons_of_mem x hy)
      have ih2 := ih hxs
      rcases hx with rfl | rfl <;> simp [List.count_cons] <;> omega
  have hcast : (((filtered_df t sel).map Row.predicted_sentiment).count "positif" : ℚ)
      + (((filtered_df t sel).map Row.predicted_sentiment).count "negatif" : ℚ)
      = ((filtered_df t sel).length : ℚ) := by
    exact_mod_cast congrArg (fun n : Nat => (n : ℚ)) hcount
  simp only [sentimentLabels, List.map_cons, List.map_nil, List.sum_cons,
    List.sum_nil, add_zero, sentiment_pct, vc_get_eq_count]
  field_simp
  linarith [hcast]

/-- C8 witness: the percentage sum evaluated on `tblC` with the 'all'
filter. -/
theorem C8_sentiment_percentages_sum_witness :
    (sentimentLabels.map (fun s => sentiment_pct (filtered_df tblC none) s)).sum = 100 :=
  C8_sentiment_percentages_sum tblC none (by decide) (by decide)

/-- C5: when zero records match the chosen (sentiment, location)
combination, lines 554-560 return the explicit `st.info` no-data message, a
value distinguishable by construction from every (even empty) sample. -/
theorem C5_no_data_marker (t : Table) (sel : Option String) (s : String) (p : List String)
    (h : sentiment_matching t sel s = []) :
    sentiment_reviews t sel s p =
      SampleResult.noData
        ("Tidak ada review dengan sentiment " ++ s ++ " untuk filter yang dipilih.") ∧
    ∀ l : List String, sentiment_reviews t sel s p ≠ SampleResult.samples l := by
  have hz : ¬ 0 < (sentiment_matching t sel s).length := by simp [h]
  constructor
  · rw [sentiment_reviews, if_neg hz]
  · intro l
    rw [sentiment_reviews, if_neg hz]
    intro hcontra
    exact SampleResult.noConfusion hcontra

/-- C5 witness: location `X` of `tblC` has zero `negatif` rows; the
operation returns the explicit no-data marker. -/
theorem C5_no_data_marker_witness :
    sentiment_reviews tblC (some "X") "negatif" [] =
      SampleResult.noData
        ("Tidak ada review dengan sentiment " ++ "negatif" ++ " untuk filter yang dipilih.") ∧
    ∀ l : List String,
      sentiment_reviews tblC (some "X") "negatif" [] ≠ SampleResult.samples l :=
  C5_no_data_marker tblC (some "X") "negatif" [] (by decide)

/-- Drawing the first `min n |pool|` elements of a permutation of the pool
returns exactly `min n |pool|` items, without replacement, and the whole
pool when it has at most `n` elements. -/
theorem take_sample_spec (pool p : List String) (n : Nat) (h : List.Perm p pool) :
    (p.take (min n pool.length)).length = min n pool.length ∧
    List.Subperm (p.take (min n pool.length)) pool ∧
    (pool.length ≤ n → List.Perm (p.take (min n pool.length)) pool) := by
  have hlen : p.length = pool.length := h.length_eq
  refine ⟨?_, ?_, ?_⟩
  · rw [List.length_take, hlen]
    exact min_eq_left (min_le_right _ _)
  · exact ((List.take_sublist _ _).subperm).trans h.subperm
  · intro hLe
    rw [min_eq_right hLe, ← hlen, List.take_length]
    exact h

/-- C4: both sampling operations (line 450 with bound 3, line 556 with
bound 5) return exactly `min(N, matching_count)` items, never more than `N`,
drawn without replacement (the sample is a sub-permutation of the matching
review pool), and return the entire pool when fewer than `N` records
match. -/
theorem C4_sampling_bounds (t : Table) (c : Int) (sel : Option String) (s : String)
    (p3 p5 : List String)
    (h3 : List.Perm p3 ((cluster_rows t c).map Row.review))
    (h5 : List.Perm p5 ((sentiment_matching t sel s).map Row.review)) :
    (sample_reviews t c p3).length = min 3 ((cluster_rows t c).map Row.review).length ∧
    (sample_reviews t c p3).length ≤ 3 ∧
    List.Subperm (sample_reviews t c p3) ((cluster_rows t c).map Row.review) ∧
    (((cluster_rows t c).map Row.review).length ≤ 3 →
        List.Perm (sample_reviews t c p3) ((cluster_rows t c).map Row.review)) ∧
    (sentiment_sample t sel s p5).length
      = min 5 ((sentiment_matching t sel s).map Row.review).length ∧
    (sentiment_sample t sel s p5).length ≤ 5 ∧
    List.Subperm (sentiment_sample t sel s p5)
      ((sentiment_matching t sel s).map Row.review) ∧
    (((sentiment_matching t sel s).map Row.review).length ≤ 5 →
        List.Perm (sentiment_sample t sel s p5)
          ((sentiment_matching t sel s).map Row.review)) := by
  obtain ⟨l3, sp3, pa3⟩ := take_sample_spec _ p3 3 h3
  obtain ⟨l5, sp5, pa5⟩ := take_sample_spec _ p5 5 h5
  exact ⟨l3, le_trans (le_of_eq l3) (min_le_left _ _), sp3, pa3,
    l5, le_trans (le_of_eq l5) (min_le_left _ _), sp5, pa5⟩

/-- C4 witness: the sampling bounds evaluated on `tblA`, cluster 0 and the
(all, positif) sentiment selection, with the identity draw. -/
theorem C4_sampling_bounds_witness :
    (sample_reviews tblA 0 ((cluster_rows tblA 0).map Row.review)).length
      = min 3 ((cluster_rows tblA 0).map Row.review).length ∧
    (sample_reviews tblA 0 ((cluster_rows tblA 0).map Row.review)).length ≤ 3 ∧
    List.Subperm (sample_reviews tblA 0 ((cluster_rows tblA 0).map Row.review))
      ((cluster_rows tblA 0).map Row.review) ∧
    (((cluster_rows tblA 0).map Row.review).length ≤ 3 →
        List.Perm (sample_reviews tblA 0 ((cluster_rows tblA 0).map Row.review))
          ((cluster_rows tblA 0).map Row.review)) ∧
    (sentiment_sample tblA none "positif"
        ((sentiment_matching tblA none "positif").map Row.review)).length
      = min 5 ((sentiment_matching tblA none "positif").map Row.review).length ∧
    (sentiment_sample tblA none "positif"
        ((sentiment_matching tblA none "positif").map Row.review)).length ≤ 5 ∧
    List.Subperm
      (sentiment_sample tblA none "positif"
        ((sentiment_matching tblA none "positif").map Row.review))
      ((sentiment_matching tblA none "positif").map Row.review) ∧
    (((sentiment_matching tblA none "positif").map Row.review).length ≤ 5 →
        List.Perm
          (sentiment_sample tblA none "positif"
            ((sentiment_matching tblA none "positif").map Row.review))
          ((sentiment_matching tblA none "positif").map Row.review)) :=
  C4_sampling_bounds tblA 0 none "positif" _ _ (List.Perm.refl _) (List.Perm.refl _)

/-- C9: the preprocessing reduction stat (modelled from the spec, absent
from this repository variant) uses the guarded `(before - after)/before*100`
formula and equals 0 whenever every record's stopword-filtered word count
equals its original word count. -/
theorem C9_reduction_stat (t : List PrepRecord)
    (h : ∀ r ∈ t, wordCount r.stopwords_data = wordCount r.review) :
    reduction_stat t = 0 ∧
    (avgWords PrepRecord.review t ≠ 0 →
        reduction_stat t =
          (avgWords PrepRecord.review t - avgWords PrepRecord.stopwords_data t) /
            avgWords PrepRecord.review t * 100) := by
  have heq : avgWords PrepRecord.stopwords_data t = avgWords PrepRecord.review t := by
    unfold avgWords
    have hm : t.map (fun r => (wordCount r.stopwords_data : ℚ))
        = t.map (fun r => (wordCount r.review : ℚ)) :=
      List.map_congr_left (fun r hr => by exact_mod_cast h r hr)
    rw [hm]
  have hdef : reduction_stat t =
      if avgWords PrepRecord.review t = 0 then 0
      else (avgWords PrepRecord.review t - avgWords PrepRecord.stopwords_data t) /
        avgWords PrepRecord.review t * 100 := rfl
  constructor
  · rw [hdef, heq]
    split_ifs with hb
    · rfl
    · rw [sub_self, zero_div, zero_mul]
  · intro hb
    rw [hdef, if_neg hb]

/-- C9 witness: the reduction stat evaluated on a record whose filtered
text kept every word. -/
theorem C9_reduction_stat_witness :
    reduction_stat prepT = 0 ∧
    (avgWords PrepRecord.review prepT ≠ 0 →
        reduction_stat prepT =
          (avgWords PrepRecord.review prepT - avgWords PrepRecord.stopwords_data prepT) /
            avgWords PrepRecord.review prepT * 100) :=
  C9_reduction_stat prepT (by decide)

end Dashboard
